import Mathlib

/-!
Shallow embedding of the `tinifier` URL-shortener (Rust) core:
the hash-to-alphabet encoder (`src/main.rs`), the `UrlEntry` record with its
merge/associate/serialisation operations (`src/url_entry.rs`), and the
`Persistence` backends (`src/persistence/mod.rs`).

Modelling conventions:
  * Rust `u64` values are modelled as `Nat` (the operations used here —
    `% 62`, `/ 62` — never overflow, so no wrap-around modelling is needed).
  * `std::time::Instant` is opaque wall-clock state; it is modelled as a
    structure of two naturals mirroring the two fields its `Debug`
    representation prints on Linux (`Instant { tv_sec: _, tv_nsec: _ }`).
    Functions that call `Instant::now()` or read the `USER` environment
    variable take the ambient value as an explicit parameter.
  * A Rust `panic!` / out-of-bounds index is modelled with `Option` /
    `Except`: `none` (resp. `.error _`) is the aborted computation.
  * `HashMap<String, UrlEntry>` is modelled as an association list with
    one binding per key: `insert` replaces any previous binding, `get` is
    `List.lookup`.
-/

/-- Model of `std::time::Instant`: the two fields its Linux `Debug`
representation exposes (`tv_sec`, `tv_nsec`). -/
structure Instant where
  sec : Nat
  nsec : Nat
deriving DecidableEq

/-- `struct UrlEntry` from `src/url_entry.rs`. -/
structure UrlEntry where
  long_url : String
  short_url : String
  expiration_date : Option Instant
  creation_date : Instant
  author : String
deriving DecidableEq

/-- `struct UrlEntryRequest` from `src/url_entry.rs`. -/
structure UrlEntryRequest where
  long_url : Option String
  short_url : Option String
  expiration_date : Option Instant
  author : String
deriving DecidableEq

/-- `const ALPHABET: &'static [char]` from `src/main.rs`, verbatim.
(The source array contains 61 characters: the digit `'7'` is absent.) -/
def ALPHABET : List Char :=
  ['0', '1', '2', '3', '4', '5', '6', '8', '9', 'a', 'b', 'c', 'd', 'e', 'f',
   'g', 'h', 'i', 'j', 'k', 'l', 'm', 'n', 'o', 'p', 'q', 'r', 's', 't', 'u',
   'v', 'w', 'x', 'y', 'z', 'A', 'B', 'C', 'D', 'E', 'F', 'G', 'H', 'I', 'J',
   'K', 'L', 'M', 'N', 'O', 'P', 'Q', 'R', 'S', 'T', 'U', 'V', 'W', 'X', 'Y',
   'Z']

/-- `fn encode_hash(mut hash: u64) -> String` from `src/main.rs`.
The loop `while hash > 0 { encoded.push(ALPHABET[(hash % 62) as usize]);
hash /= 62; }` is modelled recursively; the result is the list of pushed
characters (least-significant digit first, the order `push` appends them).
`ALPHABET[(hash % 62) as usize]` is a fallible index (the slice has 61
elements), so the result is an `Option`: `none` models the index panic. -/
def encode_hash (hash : Nat) : Option (List Char) :=
  if h0 : hash = 0 then
    some []
  else
    match ALPHABET.get? (hash % 62) with
    | none => none
    | some c => (encode_hash (hash / 62)).map (fun rest => c :: rest)
termination_by hash
decreasing_by
  exact Nat.div_lt_self (Nat.pos_of_ne_zero h0) (by decide)

/-- `UrlEntry::merge_with` from `src/url_entry.rs`: `long_url` is
`entry.long_url.clone().unwrap_or(self.long_url.clone())`, `expiration_date`
is `entry.expiration_date.or(self.expiration_date)`, and `short_url`,
`creation_date`, `author` are reassigned to themselves. -/
def UrlEntry.merge_with (self : UrlEntry) (entry : UrlEntryRequest) : UrlEntry :=
  { long_url := entry.long_url.getD self.long_url
    short_url := self.short_url
    expiration_date := entry.expiration_date.or self.expiration_date
    creation_date := self.creation_date
    author := self.author }

/-- `UrlEntry::assoc_with` from `src/url_entry.rs`: like `merge_with` for
`long_url` and `expiration_date`, but `author := entry.author.clone()`
unconditionally, while `short_url` and `creation_date` are copied from
`self`. -/
def UrlEntry.assoc_with (self : UrlEntry) (entry : UrlEntryRequest) : UrlEntry :=
  { long_url := entry.long_url.getD self.long_url
    short_url := self.short_url
    expiration_date := entry.expiration_date.or self.expiration_date
    creation_date := self.creation_date
    author := entry.author }

/-- `UrlEntry::new` from `src/url_entry.rs`. `Instant::now()` and
`env::var("USER").unwrap_or("SYSTEM")` are ambient inputs, passed as the
`now` and `user` parameters. -/
def UrlEntry.new (long_url short_url : String) (now : Instant) (user : String) : UrlEntry :=
  { long_url := long_url
    short_url := short_url
    expiration_date := none
    creation_date := now
    author := user }

/-- Claim C9: `encode_hash` applied to the hash value 0 returns the empty
string (the `while hash > 0` loop body never runs). -/
theorem encode_hash_zero : encode_hash 0 = some [] := by
  simp [encode_hash]

/-- Claim C1: the claim says the alphabet lookup `ALPHABET[hash % 62]` is
always in bounds, so `encode_hash` never fails; in fact `ALPHABET` has only
61 entries, so the hash value 61 (for which `61 % 62 = 61`) makes the lookup
go out of bounds and `encode_hash` panic. -/
theorem encode_hash_panics_at_61 : ALPHABET.length = 61 ∧ encode_hash 61 = none := by
  refine ⟨rfl, ?_⟩
  rw [encode_hash]
  norm_num
  rw [show ALPHABET[61]? = none from rfl]

/-- Claim C4: `merge_with` replaces `long_url` exactly when the request
supplies one (else keeps it), replaces `expiration_date` exactly when the
request supplies one (else keeps it), and leaves `short_url`,
`creation_date` and `author` unchanged whatever the request contains. -/
theorem merge_with_frame (e : UrlEntry) (r : UrlEntryRequest) :
    (∀ l, r.long_url = some l → (e.merge_with r).long_url = l) ∧
    (r.long_url = none → (e.merge_with r).long_url = e.long_url) ∧
    (∀ d, r.expiration_date = some d → (e.merge_with r).expiration_date = some d) ∧
    (r.expiration_date = none → (e.merge_with r).expiration_date = e.expiration_date) ∧
    (e.merge_with r).short_url = e.short_url ∧
    (e.merge_with r).creation_date = e.creation_date ∧
    (e.merge_with r).author = e.author := by
  refine ⟨?_, ?_, ?_, ?_, rfl, rfl, rfl⟩ <;>
    simp_all [UrlEntry.merge_with, Option.getD, Option.or]

/-- Witness for C4 at a concrete entry and request (the request supplies
both a new `long_url` and a new `expiration_date`). -/
theorem merge_with_frame_witness :
    (UrlEntry.merge_with ⟨"old", "s1", none, ⟨3, 4⟩, "ann"⟩
        ⟨some "new", none, some ⟨9, 9⟩, "bob"⟩).long_url = "new" ∧
    (UrlEntry.merge_with ⟨"old", "s1", none, ⟨3, 4⟩, "ann"⟩
        ⟨some "new", none, some ⟨9, 9⟩, "bob"⟩).expiration_date = some ⟨9, 9⟩ ∧
    (UrlEntry.merge_with ⟨"old", "s1", none, ⟨3, 4⟩, "ann"⟩
        ⟨some "new", none, some ⟨9, 9⟩, "bob"⟩).author = "ann" := by
  have h := merge_with_frame ⟨"old", "s1", none, ⟨3, 4⟩, "ann"⟩
    ⟨some "new", none, some ⟨9, 9⟩, "bob"⟩
  exact ⟨h.1 "new" rfl, h.2.2.1 ⟨9, 9⟩ rfl, h.2.2.2.2.2.2⟩

/-- Claim C6: `assoc_with` sets `author` to the request's author
unconditionally, copies `short_url` and `creation_date` from the original,
and applies the same supply-or-keep rule as `merge_with` to `long_url` and
`expiration_date`. -/
theorem assoc_with_spec (e : UrlEntry) (r : UrlEntryRequest) :
    (e.assoc_with r).author = r.author ∧
    (e.assoc_with r).short_url = e.short_url ∧
    (e.assoc_with r).creation_date = e.creation_date ∧
    (e.assoc_with r).long_url = (e.merge_with r).long_url ∧
    (e.assoc_with r).expiration_date = (e.merge_with r).expiration_date :=
  ⟨rfl, rfl, rfl, rfl, rfl⟩

/-- `trait Persistence` backing state, `src/persistence/mod.rs`:
`HashMap<String, UrlEntry>` as an association list with one binding per
key (insert replaces). -/
def HMap := List (String × UrlEntry)

/-- `HashMap::insert`: replace any existing binding for the key. -/
def HMap.store (m : HMap) (k : String) (v : UrlEntry) : HMap :=
  (k, v) :: List.filter (fun p => !(p.1 == k)) m

/-- `HashMap::get`: first (unique) binding for the key, if any. -/
def HMap.fetch (m : HMap) (k : String) : Option UrlEntry :=
  List.lookup k m

/-- `struct InMemory` from `src/persistence/mod.rs`. -/
structure InMemory where
  map : HMap

/-- `impl Persistence for InMemory`, `fn insert`: inserts into the map and
returns `self.map.get(&short_url)` together with the updated store. -/
def InMemory.insert (self : InMemory) (short_url : String) (entry : UrlEntry) :
    Option UrlEntry × InMemory :=
  let m := self.map.store short_url entry
  (m.fetch short_url, ⟨m⟩)

/-- `impl Persistence for InMemory`, `fn get`:
`Some(self.map.get(&short_url.into())?.to_owned())`. -/
def InMemory.get (self : InMemory) (short_url : String) : Option UrlEntry :=
  self.map.fetch short_url

/-- `impl Persistence for InMemory`, `fn contains_key`: the body is the
constant `true`, ignoring the map. -/
def InMemory.contains_key (_self : InMemory) (_short_url : String) : Bool :=
  true

/-- `struct File` from `src/persistence/mod.rs`: the in-memory read cache.
(The backing file at `/tmp/tinifier` is I/O; only the cache and the
constant-false `contains_key` matter for the claims about this backend.) -/
structure FileStore where
  map : HMap

/-- `impl Persistence for File`, `fn contains_key`: the body is the
constant `false`, ignoring both the cache and the file. -/
def FileStore.contains_key (_self : FileStore) (_short_url : String) : Bool :=
  false

/-- Claim C3: for every store state and key, `contains_key` on the
in-memory backend returns `true` and on the file-backed backend returns
`false`, regardless of whether the key is bound in the backing map —
including when the in-memory map is empty (no key present) and when the
file cache actually holds the key. -/
theorem contains_key_stubs (s : InMemory) (f : FileStore) (k : String) :
    s.contains_key k = true ∧ f.contains_key k = false ∧
    (InMemory.contains_key ⟨[]⟩ k = true ∧ InMemory.get ⟨[]⟩ k = none) ∧
    ∀ e, FileStore.contains_key ⟨[(k, e)]⟩ k = false :=
  ⟨rfl, rfl, ⟨rfl, rfl⟩, fun _ => rfl⟩

/-- Claim C10: inserting `(k, e)` into the in-memory backend returns a
present entry equal to `e`, and `get k` on the resulting store returns an
owned copy equal to `e`, for every prior store state. -/
theorem inmemory_insert_get (s : InMemory) (k : String) (e : UrlEntry) :
    (s.insert k e).1 = some e ∧ ((s.insert k e).2).get k = some e := by
  constructor <;>
    simp [InMemory.insert, InMemory.get, HMap.store, HMap.fetch, List.lookup]

/-- `fn edit_entry` from `src/main.rs`: fetches the current entry with
`persistence.get(short_url)?`, merges the request into the owned copy, and
returns `Some` of the merged copy. The Rust function borrows the store
immutably (`&T`), so it cannot write the merge back; the model returns the
store alongside the result to state that frame property. -/
def edit_entry (short_url : String) (goal_entry : UrlEntryRequest)
    (persistence : InMemory) : Option UrlEntry × InMemory :=
  match persistence.get short_url with
  | none => (none, persistence)
  | some entry => (some (entry.merge_with goal_entry), persistence)

/-- Claim C7: `edit_entry` returns `none` exactly when the store has no
entry for the code; when an entry exists it returns the merged copy of that
entry; and in both cases the store after the call equals the store before
(the merge result is never written back). -/
theorem edit_entry_spec (k : String) (r : UrlEntryRequest) (s : InMemory) :
    ((edit_entry k r s).1 = none ↔ s.get k = none) ∧
    (∀ e, s.get k = some e → (edit_entry k r s).1 = some (e.merge_with r)) ∧
    (edit_entry k r s).2 = s := by
  refine ⟨?_, ?_, ?_⟩
  · unfold edit_entry
    cases h : s.get k <;> simp
  · intro e he
    unfold edit_entry
    rw [he]
  · unfold edit_entry
    cases h : s.get k <;> simp

/-- Witness for C7 on a concrete one-entry store, exercising both the
present-key and the absent-key case of the theorem. -/
theorem edit_entry_spec_witness :
    ((edit_entry "k1" ⟨some "new", none, none, "bob"⟩
        ⟨[("k1", ⟨"old", "k1", none, ⟨1, 2⟩, "ann"⟩)]⟩).1 =
      some (UrlEntry.merge_with ⟨"old", "k1", none, ⟨1, 2⟩, "ann"⟩
        ⟨some "new", none, none, "bob"⟩)) ∧
    ((edit_entry "zz" ⟨some "new", none, none, "bob"⟩
        ⟨[("k1", ⟨"old", "k1", none, ⟨1, 2⟩, "ann"⟩)]⟩).1 = none) ∧
    ((edit_entry "k1" ⟨some "new", none, none, "bob"⟩
        ⟨[("k1", ⟨"old", "k1", none, ⟨1, 2⟩, "ann"⟩)]⟩).2 =
      ⟨[("k1", ⟨"old", "k1", none, ⟨1, 2⟩, "ann"⟩)]⟩) := by
  have h1 := edit_entry_spec "k1" ⟨some "new", none, none, "bob"⟩
    ⟨[("k1", ⟨"old", "k1", none, ⟨1, 2⟩, "ann"⟩)]⟩
  have h2 := edit_entry_spec "zz" ⟨some "new", none, none, "bob"⟩
    ⟨[("k1", ⟨"old", "k1", none, ⟨1, 2⟩, "ann"⟩)]⟩
  refine ⟨h1.2.1 _ ?_, h2.1.mpr ?_, h1.2.2⟩ <;> rfl

/-- The two abort sites of `fn add_url` from `src/main.rs`: the
out-of-bounds alphabet index inside `encode_hash`, and the explicit
`panic!("There was a collision")`. -/
inductive AddPanic
  | indexOutOfBounds
  | collision
deriving DecidableEq

/-- `fn add_url<T: Persistence>` from `src/main.rs`, instantiated at the
`InMemory` backend: computes the hash (`create_hash` always returns `Some`;
its `DefaultHasher` value is process-seeded and passed here as the `hash`
parameter), encodes it to a short code, panics on `map.contains_key`, and
otherwise constructs the entry, inserts it and returns it. `now` and `user`
are the ambient inputs of `UrlEntry::new`. -/
def add_url (long_url : String) (hash : Nat) (now : Instant) (user : String)
    (map : InMemory) : Except AddPanic (UrlEntry × InMemory) :=
  match encode_hash hash with
  | none => .error .indexOutOfBounds
  | some short =>
    let short_url := String.mk short
    if map.contains_key short_url then
      .error .collision
    else
      let entry := UrlEntry.new long_url short_url now user
      .ok (entry, (map.insert short_url entry).2)

/-- Claim C2: the claim says `add_url` on an empty in-memory store does not
abort and returns an entry for the given long URL; in fact
`InMemory::contains_key` is the constant `true`, so whenever `encode_hash`
survives its alphabet lookup, `add_url` hits `panic!("There was a
collision")` — it aborts for every hash value, in particular on the empty
store with the claim's own input `"https://example.com"`. -/
theorem add_url_inmemory_always_panics (hash : Nat) (now : Instant) (user : String) :
    ∃ p, add_url "https://example.com" hash now user ⟨[]⟩ = .error p := by
  unfold add_url
  cases h : encode_hash hash with
  | none => exact ⟨.indexOutOfBounds, rfl⟩
  | some short => exact ⟨.collision, rfl⟩

/-- Character class `[a-zA-Z0-9]` of the `from_str` regex. -/
def isAlnumChar (c : Char) : Bool :=
  ('0' ≤ c && c ≤ '9') || ('a' ≤ c && c ≤ 'z') || ('A' ≤ c && c ≤ 'Z')

/-- Character class `\w` of the `from_str` regex, restricted to ASCII
(`[a-zA-Z0-9_]`; the Unicode extension of `\w` plays no role for the
strings this development feeds the parser). -/
def isWordChar (c : Char) : Bool :=
  isAlnumChar c || c == '_'

/-- Decimal digit character, as Rust's integer `Display` prints it. -/
def decDigit (d : Nat) : Char :=
  Char.ofNat (48 + d)

/-- Decimal rendering of a natural, most significant digit first (fuelled;
`natDecFuel (n+1) n` always has enough fuel since `n / 10 < n`). -/
def natDecFuel : Nat → Nat → List Char
  | 0, _ => []
  | f + 1, n => if n < 10 then [decDigit n] else natDecFuel f (n / 10) ++ [decDigit (n % 10)]

/-- Decimal rendering of a natural, as Rust's `{}` formatting of the
`tv_sec` / `tv_nsec` fields prints it. -/
def natDec (n : Nat) : List Char :=
  natDecFuel (n + 1) n

/-- The `Debug` representation of `std::time::Instant` on Linux:
`Instant { tv_sec: <sec>, tv_nsec: <nsec> }`. -/
def instantDebug (t : Instant) : List Char :=
  "Instant \x7b tv_sec: ".data ++ natDec t.sec ++ ", tv_nsec: ".data ++
    natDec t.nsec ++ " \x7d".data

/-- The `Debug` representation of `Option<Instant>`: `None`, or
`Some(<instant debug>)`. -/
def optInstantDebug : Option Instant → List Char
  | none => "None".data
  | some t => "Some(".data ++ instantDebug t ++ ")".data

/-- `UrlEntry::to_file_string` from `src/url_entry.rs`, as a character
list: `format!("{}:{},{:?},{:?},{}", self.short_url, self.long_url,
self.expiration_date, self.creation_date, self.author)`. -/
def UrlEntry.to_file_line (e : UrlEntry) : List Char :=
  e.short_url.data ++ ':' :: (e.long_url.data ++ ',' ::
    (optInstantDebug e.expiration_date ++ ',' ::
      (instantDebug e.creation_date ++ ',' :: e.author.data)))

/-- `UrlEntry::to_file_string` from `src/url_entry.rs`. -/
def UrlEntry.to_file_string (e : UrlEntry) : String :=
  String.mk e.to_file_line

/-- `EntryParseError` from `src/url_entry.rs`. -/
structure EntryParseError where
  message : String
deriving DecidableEq

/-- The anchored leftmost-greedy match of the `from_str` regex
`^(?P<short>[a-zA-Z0-9]+):(?P<long>\w+),(?P<expiration>.*),(?P<creation>.*),(?P<author>\w+)$`,
returning the `short`, `long` and `author` captures (the only ones
`from_str` uses in its result).

Equivalences with the regex engine's behaviour, branch by branch:
`[a-zA-Z0-9]+` before the literal `:` is a maximal munch (backtracking to a
shorter run cannot help, since the character after a shorter run is again
alphanumeric, not `:`); likewise `\w+` before the literal `,`. In the
remainder, `.` matches every character except `'\n'`, so a newline anywhere
in it kills the match; `(?P<author>\w+)$` preceded by a literal `,` forces
the author capture to be the suffix after the LAST comma (a `\w+` run
contains no comma, and any longer suffix would contain one), nonempty and
all word characters; and the two `.*` groups with their separating literal
`,` consume the prefix before that last comma iff it contains a comma. -/
def regexCaptures (l : List Char) : Option (List Char × List Char × List Char) :=
  let p1 := l.span isAlnumChar
  if p1.1 = [] then none else
  match p1.2 with
  | ':' :: t1 =>
    let p2 := t1.span isWordChar
    if p2.1 = [] then none else
    match p2.2 with
    | ',' :: r =>
      if r.any (fun c => c == '\n') then none else
      let q := r.reverse.span (fun c => !(c == ','))
      match q.2 with
      | ',' :: t2 =>
        let author := q.1.reverse
        let pre := t2.reverse
        if author = [] then none
        else if !author.all isWordChar then none
        else if !pre.any (fun c => c == ',') then none
        else some (p1.1, p2.1, author)
      | _ => none
    | _ => none
  | _ => none

/-- `impl FromStr for UrlEntry`, `fn from_str` from `src/url_entry.rs`: on
a regex match, builds the entry from the `short`, `long` and `author`
captures with `expiration_date: None` and `creation_date: Instant::now()`
(the ambient `now`); otherwise the `EntryParseError` with message
`"AHHH"`. -/
def UrlEntry.from_str (now : Instant) (s : String) : Except EntryParseError UrlEntry :=
  match regexCaptures s.data with
  | some (short, long, author) =>
    .ok { short_url := String.mk short
          long_url := String.mk long
          expiration_date := none
          creation_date := now
          author := String.mk author }
  | none => .error { message := "AHHH" }

/-- `span` over a block that wholly satisfies `p` followed by a delimiter
that does not: the split lands exactly on the delimiter. -/
theorem span_exact (p : Char → Bool) (xs : List Char) (d : Char) (t : List Char)
    (hxs : xs.all p = true) (hd : p d = false) :
    (xs ++ d :: t).span p = (xs, d :: t) := by
  rw [List.span_eq_take_drop]
  induction xs with
  | nil => simp [List.takeWhile, List.dropWhile, hd]
  | cons c cs ih =>
    simp only [List.all_cons, Bool.and_eq_true] at hxs
    simp only [List.cons_append, List.takeWhile, List.dropWhile, hxs.1]
    have := ih hxs.2
    simp only [Prod.mk.injEq] at this
    simp [this.1, this.2]

/-- Every character `natDecFuel` emits is a decimal digit character. -/
theorem natDecFuel_digits (f n : Nat) (c : Char) (hc : c ∈ natDecFuel f n) :
    ∃ d, d < 10 ∧ c = decDigit d := by
  induction f generalizing n with
  | zero => simp [natDecFuel] at hc
  | succ f ih =>
    by_cases h : n < 10
    · simp [natDecFuel, h] at hc
      exact ⟨n, h, hc⟩
    · simp [natDecFuel, h] at hc
      rcases hc with hc | hc
      · exact ih (n / 10) hc
      · exact ⟨n % 10, Nat.mod_lt _ (by decide), hc⟩

/-- Decimal digit characters are not newlines. -/
theorem decDigit_ne_newline (d : Nat) (hd : d < 10) : (decDigit d == '\n') = false := by
  interval_cases d <;> decide

/-- No character of `natDec n` is a newline. -/
theorem natDec_no_newline (n : Nat) : (natDec n).all (fun c => !(c == '\n')) = true := by
  rw [List.all_eq_true]
  intro c hc
  obtain ⟨d, hd, rfl⟩ := natDecFuel_digits _ _ c hc
  simp [decDigit_ne_newline d hd]

/-- No character of the `Instant` debug representation is a newline. -/
theorem instantDebug_no_newline (t : Instant) :
    (instantDebug t).all (fun c => !(c == '\n')) = true := by
  simp only [instantDebug, List.all_append, Bool.and_eq_true]
  exact ⟨⟨⟨⟨by decide, natDec_no_newline t.sec⟩, by decide⟩, natDec_no_newline t.nsec⟩,
    by decide⟩

/-- No character of the `Option<Instant>` debug representation is a
newline. -/
theorem optInstantDebug_no_newline (o : Option Instant) :
    (optInstantDebug o).all (fun c => !(c == '\n')) = true := by
  cases o with
  | none => decide
  | some t =>
    simp only [optInstantDebug, List.all_append, Bool.and_eq_true]
    exact ⟨⟨by decide, instantDebug_no_newline t⟩, by decide⟩

/-- Word characters are neither commas nor newlines. -/
theorem isWordChar_ne_comma_newline (c : Char) (h : isWordChar c = true) :
    (c == ',') = false ∧ (c == '\n') = false := by
  constructor <;> rw [beq_eq_false_iff_ne] <;> rintro rfl <;> simp [isWordChar, isAlnumChar] at h

/-- The regex of `from_str` matches the serialised line
`short ++ ":" ++ long ++ "," ++ E ++ "," ++ C ++ "," ++ author` whenever
`short` is nonempty alphanumeric, `long` and `author` are nonempty word
runs, and the two debug blobs `E`, `C` contain no newline; the captures it
returns are exactly `short`, `long` and `author`. -/
theorem regexCaptures_line (s l a E C : List Char)
    (hs : s ≠ []) (hsa : s.all isAlnumChar = true)
    (hl : l ≠ []) (hlw : l.all isWordChar = true)
    (ha : a ≠ []) (haw : a.all isWordChar = true)
    (hE : E.all (fun c => !(c == '\n')) = true)
    (hC : C.all (fun c => !(c == '\n')) = true) :
    regexCaptures (s ++ ':' :: (l ++ ',' :: (E ++ ',' :: (C ++ ',' :: a)))) =
      some (s, l, a) := by
  have hrev : a.reverse.all (fun c => !(c == ',')) = true := by
    rw [List.all_eq_true] at haw ⊢
    intro c hc
    simp only [List.mem_reverse] at hc
    simpa using (isWordChar_ne_comma_newline c (haw c hc)).1
  have hanl : a.all (fun c => !(c == '\n')) = true := by
    rw [List.all_eq_true] at haw ⊢
    intro c hc
    simpa using (isWordChar_ne_comma_newline c (haw c hc)).2
  simp only [regexCaptures]
  rw [span_exact isAlnumChar s ':' _ hsa (by decide)]
  simp only [hs, if_false]
  rw [span_exact isWordChar l ',' _ hlw (by decide)]
  simp only [hl, if_false]
  have hnonl : (E ++ ',' :: (C ++ ',' :: a)).any (fun c => c == '\n') = false := by
    rw [List.any_eq_false]
    rw [List.all_eq_true] at hE hC hanl
    intro c hc
    simp only [List.mem_append, List.mem_cons] at hc
    rcases hc with hc | rfl | hc | rfl | hc
    · simpa using hE c hc
    · decide
    · simpa using hC c hc
    · decide
    · simpa using hanl c hc
  rw [hnonl]
  simp only [Bool.false_eq_true, if_false]
  have hrw : (E ++ ',' :: (C ++ ',' :: a)).reverse =
      a.reverse ++ ',' :: (C.reverse ++ ',' :: E.reverse) := by
    simp
  rw [hrw, span_exact _ a.reverse ',' _ hrev (by decide)]
  simp only [List.reverse_reverse, ha, if_false]
  rw [show a.all isWordChar = true from haw]
  have hpre : ((C.reverse ++ ',' :: E.reverse).reverse).any (fun c => c == ',') = true := by
    simp
  rw [hpre]
  simp

/-- Claim C5: for an entry whose `short_url` is nonempty alphanumeric,
whose `long_url` is a nonempty word-character run and whose `author` is a
nonempty word-character run, parsing the serialised line succeeds and the
parsed entry's `short_url` and `author` equal the original's (the
timestamps are not required to round-trip). -/
theorem to_file_string_round_trip (now : Instant) (e : UrlEntry)
    (hs : e.short_url.data ≠ [] ∧ e.short_url.data.all isAlnumChar = true)
    (hl : e.long_url.data ≠ [] ∧ e.long_url.data.all isWordChar = true)
    (ha : e.author.data ≠ [] ∧ e.author.data.all isWordChar = true) :
    (UrlEntry.from_str now e.to_file_string).map UrlEntry.short_url = .ok e.short_url ∧
    (UrlEntry.from_str now e.to_file_string).map UrlEntry.author = .ok e.author := by
  have hmk : ∀ s : String, String.mk s.data = s := fun ⟨_⟩ => rfl
  have hcap : regexCaptures e.to_file_string.data =
      some (e.short_url.data, e.long_url.data, e.author.data) := by
    show regexCaptures e.to_file_line = _
    unfold UrlEntry.to_file_line
    exact regexCaptures_line _ _ _ _ _ hs.1 hs.2 hl.1 hl.2 ha.1 ha.2
      (optInstantDebug_no_newline _) (instantDebug_no_newline _)
  unfold UrlEntry.from_str
  rw [hcap]
  exact ⟨by simp [Except.map, hmk], by simp [Except.map, hmk]⟩

/-- Witness for C5 at a concrete entry (with an expiration date set, so
both timestamp debug blobs appear in the line). -/
theorem to_file_string_round_trip_witness :
    (UrlEntry.from_str ⟨7, 8⟩
        (UrlEntry.to_file_string ⟨"ex", "a1", some ⟨1, 2⟩, ⟨3, 4⟩, "bob"⟩)).map
      UrlEntry.short_url = .ok "a1" ∧
    (UrlEntry.from_str ⟨7, 8⟩
        (UrlEntry.to_file_string ⟨"ex", "a1", some ⟨1, 2⟩, ⟨3, 4⟩, "bob"⟩)).map
      UrlEntry.author = .ok "bob" :=
  to_file_string_round_trip ⟨7, 8⟩ ⟨"ex", "a1", some ⟨1, 2⟩, ⟨3, 4⟩, "bob"⟩
    ⟨by decide, by decide⟩ ⟨by decide, by decide⟩ ⟨by decide, by decide⟩

/-- Claim C8: whenever `from_str` succeeds, the parsed entry's
`expiration_date` is `None` and its `creation_date` is the parse-time
clock value, whatever timestamp text the line carried. -/
theorem from_str_resets_timestamps (now : Instant) (s : String) (e : UrlEntry)
    (h : UrlEntry.from_str now s = .ok e) :
    e.expiration_date = none ∧ e.creation_date = now := by
  unfold UrlEntry.from_str at h
  cases hc : regexCaptures s.data with
  | none => rw [hc] at h; exact absurd h (by simp)
  | some cap =>
    obtain ⟨short, long, author⟩ := cap
    rw [hc] at h
    simp only [Except.ok.injEq] at h
    rw [← h]
    exact ⟨rfl, rfl⟩

/-- Witness for C8 on the concrete line `"a:b,x,y,c"`, whose timestamp
fields read `x` and `y` yet come back as `none` and the parse-time
clock. -/
theorem from_str_resets_timestamps_witness :
    UrlEntry.expiration_date ⟨"b", "a", none, ⟨7, 8⟩, "c"⟩ = none ∧
    UrlEntry.creation_date ⟨"b", "a", none, ⟨7, 8⟩, "c"⟩ = ⟨7, 8⟩ :=
  from_str_resets_timestamps ⟨7, 8⟩ "a:b,x,y,c" ⟨"b", "a", none, ⟨7, 8⟩, "c"⟩ (by rfl)
